import Mathlib

set_option autoImplicit false

/-!
Verification of the golift/deluge JSON-RPC client (Go) against its
natural-language specification.  The Go source is shallowly embedded:

* pure record types (`Response`, `Backend`, the client fields touched by the
  claims) become Lean structures;
* the network is an explicit oracle argument (the HTTP status / decoded
  envelope the daemon would return for each successive request);
* Go errors become an explicit `GoErr` type, Go runtime panics become the
  `GoResult.panic` constructor;
* Go method calls with value receivers are embedded as functions that return
  the caller-visible state, which — by Go value-receiver semantics — is the
  unmodified receiver.

The embedding covers the two client generations present in the source: the
`deluge.go` variant (cookie flag, no retry inside `Get`) and the `config.go`
variant (`req` with a single re-login-and-retry loop), plus the byte-counting
variant (`Get` that drops the cookie on a transport error).
-/

namespace Deluge

/-! ## JSON values and RPC envelopes -/

/-- A JSON value as the daemon sends it.  Numbers are modelled as integers:
every numeric field the verified claims touch (daemon port numbers, error
codes) is a whole number. -/
inductive Jso where
  | null
  | bool (b : Bool)
  | str (s : String)
  | num (n : Int)
  | arr (xs : List Jso)

/-- The `error` member of the response envelope (config.go `Response.Error`). -/
structure RpcError where
  message : String
  code : Int
  deriving DecidableEq

/-- The JSON-RPC response envelope (config.go `Response`): id, raw result,
error object.  `error.code == 0` means success. -/
structure Response where
  id : Int
  result : Jso
  error : RpcError

/-- Go-level errors produced by the client (deluge.go custom errors plus the
wrapped transport/JSON failures). -/
inductive GoErr where
  | transport
  | jsonDecode
  | authFailed (url : String) (method : String) (status : Nat)
  | delugeError (message : String)
  | invalidVersion
  deriving DecidableEq

/-- Outcome of a Go statement sequence that may also panic at runtime
(`GoResult.panic` models a Go runtime panic, which is not an `error` value). -/
inductive GoResult (α : Type) where
  | panic (msg : String)
  | err (e : GoErr)
  | ok (a : α)

/-! ## Constants from config.go -/

def AuthLogin : String := "auth.login"

def GetAllTorrents : String := "core.get_torrents_status"

def HostStatus : String := "web.get_host_status"

def GeHosts : String := "web.get_hosts"

def payloadSegments : Nat := 3

/-- `Backend` from config.go: one daemon host discovered via the hosts list. -/
structure Backend where
  id : String
  addr : String
  prot : String
  deriving DecidableEq

/-- The client state the claims touch: base URL (already normalised),
password, the `Client.cookie` authenticated flag, the request-id counter, the
discovered version and the backends map (modelled as an association list in
insertion order). -/
structure DelugeState where
  url : String
  password : String
  cookie : Bool
  id : Int
  version : String
  backends : List (String × Backend)
  deriving DecidableEq

/-! ## Login (deluge.go lines 103-129, identical in the byte-counting variant)

`Login` POSTs the `auth.login` call and inspects only the raw HTTP status of
the reply; the body is drained and discarded.  `status` and `body` are the
oracle for that HTTP exchange. -/

/-- `Login` from deluge.go: on a non-200 status it returns an error wrapping
`ErrAuthFailed` together with the request URL, the method name and the status,
leaving the client untouched; on status 200 it sets `Client.cookie = true`.
The response `body` is read and discarded, never inspected. -/
def Login (d : DelugeState) (status : Nat) (body : String) : DelugeState × Option GoErr :=
  let _ := body
  if status ≠ 200 then
    (d, some (GoErr.authFailed d.url AuthLogin status))
  else
    ({ d with cookie := true }, none)

/-- The login step as `Get` sees it: `d.Login()` can itself fail with a
transport error before any status is available (`none`), in which case the
wrapped `d.Do(req)` error is returned and the cookie flag is not touched. -/
def LoginOpt (d : DelugeState) (resp : Option (Nat × String)) : DelugeState × Option GoErr :=
  match resp with
  | none => (d, some GoErr.transport)
  | some (status, body) => Login d status body

/-! ## Get (deluge.go lines 244-282 and the byte-counting variant) -/

/-- What one HTTP POST of the RPC body produces, as seen by `Get`:
a connection error from `d.Do`, a body that fails JSON decoding, or a decoded
`Response` envelope. -/
inductive PostResult where
  | connError
  | badJson
  | envelope (r : Response)

/-- Oracle for one `Get` call: the outcome of the login POST (if one is made)
and the outcome of the method POST. -/
structure CallOracle where
  loginResp : Option (Nat × String)
  post : PostResult

/-- Trace of one `Get` call: caller-visible state afterwards, the returned
value or error, whether `Login` was invoked, and how many times the method
was POSTed. -/
structure GetTrace where
  state : DelugeState
  outcome : Except GoErr Response
  loginCalled : Bool
  postCount : Nat

/-- Tail of `Get` from deluge.go after the lazy-login step: POST the call,
read and decode the body, and fail with `ErrDelugeError` wrapping the daemon
message when `response.Error.Code != 0`.  No branch retries and no branch
changes the client state. -/
def getAfterLogin (d : DelugeState) (o : CallOracle) (loginCalled : Bool) : GetTrace :=
  match o.post with
  | PostResult.connError =>
    { state := d, outcome := Except.error GoErr.transport, loginCalled := loginCalled, postCount := 1 }
  | PostResult.badJson =>
    { state := d, outcome := Except.error GoErr.jsonDecode, loginCalled := loginCalled, postCount := 1 }
  | PostResult.envelope r =>
    if r.error.code ≠ 0 then
      { state := d, outcome := Except.error (GoErr.delugeError r.error.message),
        loginCalled := loginCalled, postCount := 1 }
    else
      { state := d, outcome := Except.ok r, loginCalled := loginCalled, postCount := 1 }

/-- `Get` from deluge.go (lines 244-282): if `d.cookie` is not set, perform
`Login` first and propagate its failure; then POST the call once.  There is no
retry and the cookie flag is never cleared in this variant. -/
def Get (d : DelugeState) (o : CallOracle) : GetTrace :=
  if d.cookie = false then
    match LoginOpt d o.loginResp with
    | (d2, some e) =>
      { state := d2, outcome := Except.error e, loginCalled := true, postCount := 0 }
    | (d2, none) => getAfterLogin d2 o true
  else
    getAfterLogin d o false

/-- Tail of `Get` from the byte-counting variant (src/unnamed/part_003 lines
257-293) after the lazy-login step.  The single difference from deluge.go:
when `d.Do` fails with a connection error the client sets
`d.Client.cookie = false` before surfacing the error (the receiver is a value,
but `Client` is a shared pointer, so the cleared flag persists). -/
def getAfterLoginP3 (d : DelugeState) (o : CallOracle) (loginCalled : Bool) : GetTrace :=
  match o.post with
  | PostResult.connError =>
    { state := { d with cookie := false }, outcome := Except.error GoErr.transport,
      loginCalled := loginCalled, postCount := 1 }
  | PostResult.badJson =>
    { state := d, outcome := Except.error GoErr.jsonDecode, loginCalled := loginCalled, postCount := 1 }
  | PostResult.envelope r =>
    if r.error.code ≠ 0 then
      { state := d, outcome := Except.error (GoErr.delugeError r.error.message),
        loginCalled := loginCalled, postCount := 1 }
    else
      { state := d, outcome := Except.ok r, loginCalled := loginCalled, postCount := 1 }

/-- `Get` from src/unnamed/part_003 (lines 257-293): lazy login, one POST, no
retry; a transport failure clears the cookie flag so the next call re-logs in. -/
def GetP3 (d : DelugeState) (o : CallOracle) : GetTrace :=
  if d.cookie = false then
    match LoginOpt d o.loginResp with
    | (d2, some e) =>
      { state := d2, outcome := Except.error e, loginCalled := true, postCount := 0 }
    | (d2, none) => getAfterLoginP3 d2 o true
  else
    getAfterLoginP3 d o false

/-- The `loginCalled` flags of a sequence of `Get` calls issued sequentially
on one client, threading the caller-visible state. -/
def getSeqLogins (d : DelugeState) : List CallOracle → List Bool
  | [] => []
  | o :: rest =>
    let t := Get d o
    t.loginCalled :: getSeqLogins t.state rest

/-! ## Concrete states used by witnesses -/

def freshURL : String := "http://127.0.0.1:8112/json"

def freshPassword : String := "deluge"

/-- A freshly constructed client (after `newConfig` with `login = false`):
no cookie, id counter zero, no version, empty backends map. -/
def freshClient : DelugeState :=
  { url := freshURL, password := freshPassword, cookie := false, id := 0,
    version := "", backends := [] }

/-- An envelope in which the daemon reports success. -/
def okEnvelope : Response :=
  { id := 1, result := Jso.null, error := { message := "", code := 0 } }

def notAuthenticatedMsg : String := "Not authenticated"

/-- An envelope in which the daemon reports a non-zero error code. -/
def errEnvelope : Response :=
  { id := 1, result := Jso.null, error := { message := notAuthenticatedMsg, code := 1 } }

def emptyBody : String := ""

def okOracle : CallOracle :=
  { loginResp := some (200, emptyBody), post := PostResult.envelope okEnvelope }

def connFailOracle : CallOracle :=
  { loginResp := some (200, emptyBody), post := PostResult.connError }

/-! ## DelReq (deluge.go lines 187-204; the same value-receiver shape in
config.go line 546, part_002 line 158 and part_003 line 200) -/

/-- A JSON-RPC request envelope as `DelReq` marshals it. -/
structure RequestEnvelope where
  method : String
  id : Int
  params : List String
  deriving DecidableEq

/-- `DelReq`: `func (d Deluge) DelReq(...)`.  The receiver is a VALUE, so the
`d.id++` on its first line increments a local copy of the client; the envelope
carries the copy's id, `d.id + 1`, and the caller's client is — by Go
value-receiver semantics — unchanged after the call, which is what the second
component returns. -/
def DelReq (d : DelugeState) (method : String) (params : List String) :
    RequestEnvelope × DelugeState :=
  let copy := { d with id := d.id + 1 }
  ({ method := method, id := copy.id, params := params }, d)

/-- The ids carried by the envelopes of a sequence of requests issued
sequentially by one client, threading the caller-visible state. -/
def requestIds (d : DelugeState) : List String → List Int
  | [] => []
  | m :: rest =>
    let r := DelReq d m []
    r.1.id :: requestIds r.2 rest

/-! ## Boolean-like transfer-status fields (config.go lines 218 and 273) -/

def boolTypeErrorMsg : String := "json: cannot unmarshal value into Go value of type bool"

def literalOne : String := "1"

/-- Go encoding/json semantics for a struct field declared as plain `bool`
(`MoveOnCompleted bool` tagged move_on_completed: config.go line 218 in
`XferStatus`, line 273 in `XferStatusCompat`; no type in the source carries a
custom UnmarshalJSON): a JSON boolean is stored, a JSON null leaves the zero
value `false` and reports no error, and a JSON value of any other kind —
including every string — fails with an UnmarshalTypeError. -/
def unmarshalBoolField : Jso → Except String Bool
  | Jso.bool b => Except.ok b
  | Jso.null => Except.ok false
  | _ => Except.error boolTypeErrorMsg

/-! ## Version extraction from the host-status list (deluge.go lines 164-183) -/

/-- The final step of `setVersion`: the decoded host-status `result` list must
have at least `payloadSegments = 3` elements, and its last element — read as
`server[len(server)-1]` — must be a string; that string becomes the version.
Otherwise the call fails with `ErrInvalidVersion`. -/
def versionFromHostStatus (server : List Jso) : Except GoErr String :=
  if server.length < payloadSegments then Except.error GoErr.invalidVersion
  else
    match server[server.length - 1]? with
    | some (Jso.str v) => Except.ok v
    | _ => Except.error GoErr.invalidVersion

def xStr : String := "x"

def yStr : String := "y"

def verStr : String := "2.0.3"

/-- The host-status payload from the specification's discovery example. -/
def hostStatusExample : List Jso := [Jso.str xStr, Jso.str yStr, Jso.str verStr]

/-! ## req: the re-login-and-retry state machine (config.go lines 616-650) -/

/-- `req` from config.go: `daemon method params n` is the outcome of the n-th
POST of this method with these params (the oracle for `d.client.Do` plus the
envelope decode), and `login n` is the outcome of the n-th `LoginContext`
performed while handling daemon error codes (`none` meaning success).
`callIdx` and `loginIdx` count the POSTs and logins already performed; the
returned triple is the Go return value together with the final counts.  The
`loop` flag matches the Go parameter: one retry is permitted while it is true,
and the retry re-issues the same method and params with `loop = false`.  Note
that on a non-zero error code a `LoginContext` runs BEFORE the loop check, so
a failed retry performs a second re-login before returning `ErrDelugeError`. -/
def reqGo (daemon : String → List String → Nat → PostResult) (login : Nat → Option GoErr)
    (method : String) (params : List String) (callIdx loginIdx : Nat) (loop : Bool) :
    Except GoErr Response × Nat × Nat :=
  match daemon method params callIdx with
  | PostResult.connError => (Except.error GoErr.transport, callIdx + 1, loginIdx)
  | PostResult.badJson => (Except.error GoErr.jsonDecode, callIdx + 1, loginIdx)
  | PostResult.envelope response =>
    if response.error.code ≠ 0 then
      match login loginIdx with
      | some e => (Except.error e, callIdx + 1, loginIdx + 1)
      | none =>
        match loop with
        | true => reqGo daemon login method params (callIdx + 1) (loginIdx + 1) false
        | false =>
          (Except.error (GoErr.delugeError response.error.message), callIdx + 1, loginIdx + 1)
    else (Except.ok response, callIdx + 1, loginIdx)
termination_by loop.toNat

/-- `Get` from config.go (lines 616-618): `req(ctx, method, params, true)`
with fresh counters. -/
def GetCfg (daemon : String → List String → Nat → PostResult) (login : Nat → Option GoErr)
    (method : String) (params : List String) : Except GoErr Response × Nat × Nat :=
  reqGo daemon login method params 0 0 true

/-- A daemon that answers every POST with the same non-zero error envelope. -/
def alwaysErrDaemon : String → List String → Nat → PostResult :=
  fun _ _ _ => PostResult.envelope errEnvelope

/-- A daemon whose first POST of a call errors and whose retry succeeds. -/
def flakyDaemon : String → List String → Nat → PostResult :=
  fun _ _ n =>
    match n with
    | 0 => PostResult.envelope errEnvelope
    | _ + 1 => PostResult.envelope okEnvelope

/-- A login endpoint that always succeeds. -/
def alwaysOkLogin : Nat → Option GoErr := fun _ => none

/-- The two empty-string filter parameters of the torrent-list call. -/
def emptyFilters : List String := [emptyBody, emptyBody]

/-! ## The hosts loop of setVersion (config.go lines 506-517, deluge.go lines
146-156) -/

/-- The safe two-value Go type assertion `s, _ := x.(string)`: the zero value
on a dynamic-type mismatch. -/
def asString : Jso → String
  | Jso.str s => s
  | _ => ""

/-- The safe two-value Go type assertion `v, _ := x.(float64)`. -/
def asNum : Jso → Int
  | Jso.num n => n
  | _ => 0

def indexOutOfRange : String := "runtime error: index out of range"

def interfaceConversion : String := "interface conversion: interface holds the wrong type"

def colonStr : String := ":"

/-- `strconv.FormatFloat(v, 'f', 0, 64)` restricted to the whole-number port
values this model admits. -/
def formatPort (n : Int) : String := toString n

/-- The per-tuple decode of the hosts loop in config.go (lines 509-516):
indices 0 through 3 are read positionally with no length guard — a tuple with
fewer than 4 elements panics with index out of range — while the type
assertions use the safe two-value form and yield zero values on a mismatch. -/
def decodeBackendTuple (server : List Jso) : GoResult (String × Backend) :=
  match server[0]?, server[1]?, server[2]?, server[3]? with
  | some s0, some s1, some s2, some s3 =>
    let serverID := asString s0
    GoResult.ok (serverID,
      { id := serverID,
        addr := asString s1 ++ colonStr ++ formatPort (asNum s2),
        prot := asString s3 })
  | _, _, _, _ => GoResult.panic indexOutOfRange

/-- The per-tuple decode of the hosts loop in deluge.go (lines 149-156):
index 0 is read with the safe two-value assertion, but indices 1 through 3
use unchecked assertions (`server[1].(string)`, `server[2].(float64)`,
`server[3].(string)`) that panic on a wrong dynamic type; all four indices
are read with no length guard. -/
def decodeBackendTupleD (server : List Jso) : GoResult (String × Backend) :=
  match server[0]? with
  | none => GoResult.panic indexOutOfRange
  | some s0 =>
    let serverID := asString s0
    match server[1]? with
    | none => GoResult.panic indexOutOfRange
    | some (Jso.str a1) =>
      match server[2]? with
      | none => GoResult.panic indexOutOfRange
      | some (Jso.num p2) =>
        match server[3]? with
        | none => GoResult.panic indexOutOfRange
        | some (Jso.str p3) =>
          GoResult.ok (serverID,
            { id := serverID, addr := a1 ++ colonStr ++ formatPort p2, prot := p3 })
        | some _ => GoResult.panic interfaceConversion
      | some _ => GoResult.panic interfaceConversion
    | some _ => GoResult.panic interfaceConversion

/-- Go map assignment `m[k] = v` on the association-list model of the
`Backends` map: replace the entry with key `k`, or append when absent. -/
def insertBackend : List (String × Backend) → String → Backend → List (String × Backend)
  | [], k, v => [(k, v)]
  | (k2, v2) :: rest, k, v =>
    if k2 = k then (k, v) :: rest else (k2, v2) :: insertBackend rest k v

/-- Go map read `m[k]`. -/
def lookupBackend : List (String × Backend) → String → Option Backend
  | [], _ => none
  | (k2, v2) :: rest, k => if k2 = k then some v2 else lookupBackend rest k

/-- The hosts loop of `setVersion` (config.go lines 506-517): decode each
tuple positionally and store it into the EXISTING `d.Backends` map — the map
is created once at client construction and never cleared — updating
`serverID` to the current tuple's id so the last one is carried forward.  A
tuple that panics aborts the call. -/
def storeBackends : List (List Jso) → List (String × Backend) → String →
    GoResult (List (String × Backend) × String)
  | [], backends, serverID => GoResult.ok (backends, serverID)
  | s :: rest, backends, _ =>
    match decodeBackendTuple s with
    | GoResult.panic m => GoResult.panic m
    | GoResult.err e => GoResult.err e
    | GoResult.ok (sid, b) => storeBackends rest (insertBackend backends sid b) sid

/-- All tuples decoded in order (specification device used to state what the
loop computes when no tuple panics). -/
def decodeList : List (List Jso) → GoResult (List (String × Backend))
  | [] => GoResult.ok []
  | s :: rest =>
    match decodeBackendTuple s with
    | GoResult.panic m => GoResult.panic m
    | GoResult.err e => GoResult.err e
    | GoResult.ok p =>
      match decodeList rest with
      | GoResult.panic m => GoResult.panic m
      | GoResult.err e => GoResult.err e
      | GoResult.ok ps => GoResult.ok (p :: ps)

/-- The LAST binding of a key in a decoded tuple list (later tuples overwrite
earlier ones with the same id). -/
def lastAssoc : List (String × Backend) → String → Option Backend
  | [], _ => none
  | (k2, v) :: rest, k =>
    match lastAssoc rest k with
    | some r => some r
    | none => if k2 = k then some v else none

/-- Folding a decoded tuple list into an existing map with Go map-assignment
semantics. -/
def applyPairs (backends : List (String × Backend)) (pairs : List (String × Backend)) :
    List (String × Backend) :=
  pairs.foldl (fun m p => insertBackend m p.1 p.2) backends

def h1Id : String := "h1"

def h1Addr : String := "10.0.0.1"

def h1AddrPort : String := "10.0.0.1:8112"

def tcpStr : String := "tcp"

/-- The hosts tuple from the specification's discovery example. -/
def hostTuple1 : List Jso := [Jso.str h1Id, Jso.str h1Addr, Jso.num 8112, Jso.str tcpStr]

def backendH1 : Backend := { id := h1Id, addr := h1AddrPort, prot := tcpStr }

def oldId : String := "old"

def oldAddr : String := "10.9.9.9:58846"

/-- A backend left over from an earlier discovery call. -/
def staleBackend : Backend := { id := oldId, addr := oldAddr, prot := tcpStr }

/-- A hosts tuple with fewer than 4 elements. -/
def shortTuple : List Jso := [Jso.str h1Id]

/-! ## URL normalisation (deluge.go line 62, config.go line 421) -/

def slashJson : String := "/json"

def slashSlashJson : String := "//json"

def slashStr : String := "/"

/-- `strings.TrimSuffix`: drop the suffix when present, else return the string
unchanged (on the character-list representation). -/
def trimSuffixL (s sfx : List Char) : List Char :=
  if sfx <:+ s then s.take (s.length - sfx.length) else s

/-- The URL normalisation performed at client construction:
`config.URL = strings.TrimSuffix(strings.TrimSuffix(config.URL, "/json"), "/") + "/json"`. -/
def normalizeURLChars (url : List Char) : List Char :=
  trimSuffixL (trimSuffixL url slashJson.data) slashStr.data ++ slashJson.data

/-- The same normalisation on `String`. -/
def normalizeURL (url : String) : String :=
  String.mk (normalizeURLChars url.data)

def doubleSlashURL : String := "http://host//json"

def singleSlashURL : String := "http://host/json"

end Deluge

namespace Deluge

/-! ## Theorems -/

/-- Helper: `getAfterLogin` reports the login flag it was given and keeps the
client state unchanged. -/
theorem getAfterLogin_spec (d : DelugeState) (o : CallOracle) (lc : Bool) :
    (getAfterLogin d o lc).loginCalled = lc ∧ (getAfterLogin d o lc).state = d := by
  unfold getAfterLogin
  cases o.post with
  | connError => exact ⟨rfl, rfl⟩
  | badJson => exact ⟨rfl, rfl⟩
  | envelope r =>
    by_cases hc : r.error.code ≠ 0
    · simp [if_pos hc]
    · simp [if_neg hc]

/-- Helper: a `Get` (deluge.go) on an authenticated client never invokes
`Login` and leaves the cookie flag set. -/
theorem get_skips_login_of_cookie (d : DelugeState) (o : CallOracle) (h : d.cookie = true) :
    (Get d o).loginCalled = false ∧ (Get d o).state.cookie = true := by
  have hne : ¬ d.cookie = false := by simp [h]
  have hg : Get d o = getAfterLogin d o false := by
    unfold Get
    rw [if_neg hne]
  rw [hg]
  have hs := getAfterLogin_spec d o false
  exact ⟨hs.1, by rw [hs.2, h]⟩

/-- Claim C2: a `Login` whose HTTP response has status 200 succeeds
regardless of the response body, marks the session authenticated
(`cookie = true`), and every subsequent `Get` on the same client skips the
initial login step: across any further sequence of calls, `Login` is never
invoked again by `Get`. -/
theorem login200_succeeds_and_later_gets_skip_login
    (d : DelugeState) (body : String) (os : List CallOracle) :
    Login d 200 body = ({ d with cookie := true }, none) ∧
    ∀ b ∈ getSeqLogins (Login d 200 body).1 os, b = false := by
  refine ⟨rfl, ?_⟩
  have hstart : (Login d 200 body).1.cookie = true := rfl
  revert hstart
  generalize (Login d 200 body).1 = st
  intro hstart
  induction os generalizing st with
  | nil => intro b hb; simp [getSeqLogins] at hb
  | cons o rest ih =>
    intro b hb
    have h2 := get_skips_login_of_cookie st o hstart
    simp only [getSeqLogins, List.mem_cons] at hb
    rcases hb with hb | hb
    · rw [hb]; exact h2.1
    · exact ih (Get st o).state h2.2 b hb

/-- Witness for C2 at a concrete client and call sequence. -/
theorem login200_succeeds_and_later_gets_skip_login_witness :
    Login freshClient 200 emptyBody = ({ freshClient with cookie := true }, none) ∧
    ∀ b ∈ getSeqLogins (Login freshClient 200 emptyBody).1 [okOracle, connFailOracle],
      b = false :=
  login200_succeeds_and_later_gets_skip_login freshClient emptyBody [okOracle, connFailOracle]

/-- Claim C3: a `Login` whose HTTP response status is not 200 returns an error
wrapping `ErrAuthFailed` carrying the request URL, the method name
`auth.login` and the status, and leaves the client state — in particular the
authenticated flag — exactly as it was, so an unauthenticated session stays
unauthenticated. -/
theorem loginNon200_authFailed_leaves_unauthenticated
    (d : DelugeState) (status : Nat) (body : String) (h : status ≠ 200) :
    (Login d status body).1 = d ∧
    (Login d status body).2 = some (GoErr.authFailed d.url AuthLogin status) ∧
    (d.cookie = false → (Login d status body).1.cookie = false) := by
  unfold Login
  rw [if_pos h]
  exact ⟨rfl, rfl, fun hc => hc⟩

/-- Witness for C3 at a concrete input: a 403 login on a fresh client. -/
theorem loginNon200_authFailed_leaves_unauthenticated_witness :
    (Login freshClient 403 emptyBody).1 = freshClient ∧
    (Login freshClient 403 emptyBody).2 = some (GoErr.authFailed freshClient.url AuthLogin 403) ∧
    (freshClient.cookie = false → (Login freshClient 403 emptyBody).1.cookie = false) :=
  loginNon200_authFailed_leaves_unauthenticated freshClient 403 emptyBody (by decide)

/-- Claim C9: when the HTTP transport fails on the method POST (byte-counting
variant, src/unnamed/part_003), the call is not retried (one POST only), the
transport error is surfaced immediately, and the cookie flag is cleared so
that the next `Get` on the same client performs a fresh login first. -/
theorem getP3_calls_login_of_no_cookie (d : DelugeState) (o : CallOracle)
    (h : d.cookie = false) :
    (GetP3 d o).loginCalled = true := by
  have hg : GetP3 d o =
      match LoginOpt d o.loginResp with
      | (d2, some e) =>
        { state := d2, outcome := Except.error e, loginCalled := true, postCount := 0 }
      | (d2, none) => getAfterLoginP3 d2 o true := by
    unfold GetP3
    rw [if_pos h]
  rw [hg]
  cases hl : LoginOpt d o.loginResp with
  | mk d2 e =>
    cases e with
    | none =>
      simp only []
      unfold getAfterLoginP3
      cases o.post with
      | connError => rfl
      | badJson => rfl
      | envelope r =>
        by_cases hr : r.error.code ≠ 0
        · simp only [if_pos hr]
        · simp only [if_neg hr]
    | some e => rfl

theorem transportFailure_no_retry_marks_unauthenticated
    (d : DelugeState) (o o2 : CallOracle)
    (hc : d.cookie = true) (ht : o.post = PostResult.connError) :
    (GetP3 d o).outcome = Except.error GoErr.transport ∧
    (GetP3 d o).postCount = 1 ∧
    (GetP3 d o).loginCalled = false ∧
    (GetP3 d o).state.cookie = false ∧
    (GetP3 (GetP3 d o).state o2).loginCalled = true := by
  have hne : ¬ d.cookie = false := by simp [hc]
  have h1 : GetP3 d o =
      { state := { d with cookie := false }, outcome := Except.error GoErr.transport,
        loginCalled := false, postCount := 1 } := by
    unfold GetP3
    rw [if_neg hne]
    unfold getAfterLoginP3
    rw [ht]
  refine ⟨by rw [h1], by rw [h1], by rw [h1], by rw [h1], ?_⟩
  exact getP3_calls_login_of_no_cookie _ o2 (by rw [h1])

/-- Witness for C9 at a concrete input: an authenticated client whose POST
hits a connection error, followed by a second call. -/
theorem transportFailure_no_retry_marks_unauthenticated_witness :
    (GetP3 { freshClient with cookie := true } connFailOracle).outcome
        = Except.error GoErr.transport ∧
    (GetP3 { freshClient with cookie := true } connFailOracle).postCount = 1 ∧
    (GetP3 { freshClient with cookie := true } connFailOracle).loginCalled = false ∧
    (GetP3 { freshClient with cookie := true } connFailOracle).state.cookie = false ∧
    (GetP3 (GetP3 { freshClient with cookie := true } connFailOracle).state okOracle).loginCalled
        = true :=
  transportFailure_no_retry_marks_unauthenticated
    { freshClient with cookie := true } connFailOracle okOracle rfl rfl

/-- Claim C4 (code bug): the request-id counter never advances.  `DelReq` has
a value receiver, so `d.id++` increments a discarded copy: every envelope a
client sends carries id `d.id + 1` — id 1 for a fresh client — and two
successive requests carry equal ids, not strictly increasing ones. -/
theorem requestIds_never_increase :
    (∀ (d : DelugeState) (ms : List String),
        requestIds d ms = ms.map fun _ => d.id + 1) ∧
    requestIds freshClient [GeHosts, GetAllTorrents] = [1, 1] := by
  constructor
  · intro d ms
    induction ms with
    | nil => rfl
    | cons m rest ih =>
      show (DelReq d m []).1.id :: requestIds (DelReq d m []).2 rest = _
      rw [List.map_cons]
      exact congrArg (List.cons (d.id + 1)) ih
  · rfl

/-- Witness for the C4 analysis at a fresh client issuing the two discovery
methods. -/
theorem requestIds_never_increase_witness :
    requestIds freshClient [GeHosts, GetAllTorrents] =
      [GeHosts, GetAllTorrents].map fun _ => freshClient.id + 1 :=
  requestIds_never_increase.1 freshClient [GeHosts, GetAllTorrents]

/-- Claim C5 (refuted): the daemon sending the JSON string "1" for
move_on_completed does NOT decode to true — the field is a plain Go `bool`,
so standard JSON decoding raises an UnmarshalTypeError for any string. -/
theorem boolField_string_one_errors :
    unmarshalBoolField (Jso.str literalOne) = Except.error boolTypeErrorMsg := rfl

/-- Claim C5 amended: for the plain-`bool` move_on_completed field, a native
JSON boolean decodes to itself and a JSON null decodes (without error) to
false, while every JSON string — "1", "true", "yes", "active" in any letter
case included — and every number or array raises a decoding error; no string
form ever coerces to a boolean. -/
theorem boolField_decoding_characterisation :
    (∀ b, unmarshalBoolField (Jso.bool b) = Except.ok b) ∧
    unmarshalBoolField Jso.null = Except.ok false ∧
    (∀ s, unmarshalBoolField (Jso.str s) = Except.error boolTypeErrorMsg) ∧
    (∀ n, unmarshalBoolField (Jso.num n) = Except.error boolTypeErrorMsg) ∧
    (∀ xs, unmarshalBoolField (Jso.arr xs) = Except.error boolTypeErrorMsg) :=
  ⟨fun _ => rfl, rfl, fun _ => rfl, fun _ => rfl, fun _ => rfl⟩

/-- Witness for the amended C5 at a concrete native boolean. -/
theorem boolField_decoding_characterisation_witness :
    unmarshalBoolField (Jso.bool true) = Except.ok true :=
  boolField_decoding_characterisation.1 true

/-- Claim C6: `setVersion` extracts the version exactly when the host-status
list has at least `payloadSegments = 3` elements and its last element is a
string, in which case the version is that last element; with fewer than 3
elements, or a non-string last element, it fails with `ErrInvalidVersion`. -/
theorem versionFromHostStatus_characterisation (server : List Jso) :
    (∀ v, versionFromHostStatus server = Except.ok v ↔
        payloadSegments ≤ server.length ∧ server.getLast? = some (Jso.str v)) ∧
    (server.length < payloadSegments →
        versionFromHostStatus server = Except.error GoErr.invalidVersion) ∧
    (∀ x, payloadSegments ≤ server.length → server.getLast? = some x →
        (∀ s, x ≠ Jso.str s) →
        versionFromHostStatus server = Except.error GoErr.invalidVersion) := by
  have hps : payloadSegments = 3 := rfl
  have hidx : server[server.length - 1]? = server.getLast? :=
    (List.getLast?_eq_getElem? server).symm
  unfold versionFromHostStatus
  rw [hidx]
  by_cases hlt : server.length < payloadSegments
  · rw [if_pos hlt]
    refine ⟨fun v => ?_, fun _ => rfl, fun x hge _ _ => rfl⟩
    constructor
    · intro h; exact Except.noConfusion h
    · intro h; exact absurd h.1 (by rw [hps] at hlt ⊢; omega)
  · rw [if_neg hlt]
    cases hg : server.getLast? with
    | none =>
      refine ⟨fun v => ?_, fun h => absurd h hlt, fun x _ hx _ => Option.noConfusion hx⟩
      simp
    | some x =>
      cases x with
      | str v0 =>
        refine ⟨fun v => ?_, fun h => absurd h hlt, fun x2 _ hx2 hnot => ?_⟩
        · constructor
          · intro h
            refine ⟨Nat.not_lt.mp hlt, ?_⟩
            have hv : v0 = v := by
              injection h
            rw [hv]
          · intro h
            have hv : v0 = v := by
              have := h.2
              injection this with h2
              injection h2
            rw [hv]
        · have hx : x2 = Jso.str v0 := by
            injection hx2 with h2
            exact h2.symm
          exact absurd hx (hnot v0)
      | null =>
        refine ⟨fun v => ?_, fun h => absurd h hlt, fun x2 _ _ _ => rfl⟩
        simp
      | bool b =>
        refine ⟨fun v => ?_, fun h => absurd h hlt, fun x2 _ _ _ => rfl⟩
        simp
      | num n =>
        refine ⟨fun v => ?_, fun h => absurd h hlt, fun x2 _ _ _ => rfl⟩
        simp
      | arr xs =>
        refine ⟨fun v => ?_, fun h => absurd h hlt, fun x2 _ _ _ => rfl⟩
        simp

/-- Witness for C6 at the specification example payload: the version is the
last element of a 3-element list. -/
theorem versionFromHostStatus_characterisation_witness :
    versionFromHostStatus hostStatusExample = Except.ok verStr :=
  ((versionFromHostStatus_characterisation hostStatusExample).1 verStr).mpr
    ⟨by decide, rfl⟩

/-- One-step unfolding equation of `reqGo` (the recursion is on the `loop`
flag, so the defining equation is propositional, not definitional). -/
theorem reqGo_unfold (daemon : String → List String → Nat → PostResult)
    (login : Nat → Option GoErr) (method : String) (params : List String)
    (callIdx loginIdx : Nat) (loop : Bool) :
    reqGo daemon login method params callIdx loginIdx loop =
      match daemon method params callIdx with
      | PostResult.connError => (Except.error GoErr.transport, callIdx + 1, loginIdx)
      | PostResult.badJson => (Except.error GoErr.jsonDecode, callIdx + 1, loginIdx)
      | PostResult.envelope response =>
        if response.error.code ≠ 0 then
          match login loginIdx with
          | some e => (Except.error e, callIdx + 1, loginIdx + 1)
          | none =>
            match loop with
            | true => reqGo daemon login method params (callIdx + 1) (loginIdx + 1) false
            | false =>
              (Except.error (GoErr.delugeError response.error.message), callIdx + 1, loginIdx + 1)
        else (Except.ok response, callIdx + 1, loginIdx) := by
  rw [reqGo]

/-- Claim C1 (refuted): with a daemon that answers every attempt of the call
with a non-zero error code and logins that always succeed, `Get`/`req`
performs TWO re-logins, not exactly one: one before the retry and — because
`LoginContext` runs before the `loop` check — one more after the failed retry,
just before `ErrDelugeError` is returned.  The middle component counts POSTs
of the call (2 = one retry) and the last component counts re-logins (2). -/
theorem getCfg_two_relogins_on_persistent_error :
    GetCfg alwaysErrDaemon alwaysOkLogin GetAllTorrents emptyFilters =
      (Except.error (GoErr.delugeError notAuthenticatedMsg), 2, 2) := by
  unfold GetCfg
  rw [reqGo_unfold, reqGo_unfold]
  rfl

/-- Claim C1 amended: on a daemon error (`error.code != 0`) `req` re-logs in
and — when that login succeeds — retries the same method and params exactly
once.  When the re-login fails, its error is returned and no retry happens.
A successful retry is returned to the caller transparently, with exactly one
re-login performed.  When the retry also returns a non-zero code, one further
re-login is attempted and then `ErrDelugeError` wrapping the daemon message is
returned (or the failing second login error instead); in every case at most
two POSTs of the call and at most two re-logins occur, and no further retry
happens. -/
theorem getCfg_retry_behaviour (daemon : String → List String → Nat → PostResult)
    (login : Nat → Option GoErr) (method : String) (params : List String) (r0 : Response)
    (h0 : daemon method params 0 = PostResult.envelope r0) (he : r0.error.code ≠ 0) :
    (∀ e, login 0 = some e →
        GetCfg daemon login method params = (Except.error e, 1, 1)) ∧
    (login 0 = none →
      (daemon method params 1 = PostResult.connError →
          GetCfg daemon login method params = (Except.error GoErr.transport, 2, 1)) ∧
      (∀ r1, daemon method params 1 = PostResult.envelope r1 →
        (r1.error.code = 0 →
            GetCfg daemon login method params = (Except.ok r1, 2, 1)) ∧
        (r1.error.code ≠ 0 →
          (login 1 = none →
              GetCfg daemon login method params =
                (Except.error (GoErr.delugeError r1.error.message), 2, 2)) ∧
          (∀ e2, login 1 = some e2 →
              GetCfg daemon login method params = (Except.error e2, 2, 2))))) := by
  have hstep : GetCfg daemon login method params =
      (match login 0 with
       | some e => (Except.error e, 1, 1)
       | none => reqGo daemon login method params 1 1 false) := by
    unfold GetCfg
    rw [reqGo_unfold, h0]
    simp only [if_pos he]
  constructor
  · intro e hl
    rw [hstep, hl]
  · intro hl
    have hretry : GetCfg daemon login method params =
        reqGo daemon login method params 1 1 false := by
      rw [hstep, hl]
    constructor
    · intro hconn
      rw [hretry, reqGo_unfold, hconn]
    · intro r1 h1
      constructor
      · intro hz
        rw [hretry, reqGo_unfold, h1]
        simp only [if_neg (by simp [hz] : ¬ r1.error.code ≠ 0)]
      · intro hnz
        constructor
        · intro hl1
          rw [hretry, reqGo_unfold, h1]
          simp only [if_pos hnz, hl1]
        · intro e2 hl1
          rw [hretry, reqGo_unfold, h1]
          simp only [if_pos hnz, hl1]

/-- Witness for the amended C1 at concrete oracles: the daemon errors once and
succeeds on the retry; the caller transparently receives the retry result,
with one re-login and two POSTs performed. -/
theorem getCfg_retry_behaviour_witness :
    GetCfg flakyDaemon alwaysOkLogin GetAllTorrents emptyFilters =
      (Except.ok okEnvelope, 2, 1) := by
  have h := getCfg_retry_behaviour flakyDaemon alwaysOkLogin GetAllTorrents emptyFilters
    errEnvelope rfl (by decide)
  exact ((h.2 rfl).2 okEnvelope rfl).1 rfl

/-- Claim C7 (refuted): the `Backends` map is NOT overwritten wholesale.  A
discovery call that returns only host `h1` leaves a stale entry from an
earlier call in the map: the map is merged into, never cleared. -/
theorem storeBackends_keeps_stale_entries :
    storeBackends [hostTuple1] [(oldId, staleBackend)] emptyBody =
      GoResult.ok ([(oldId, staleBackend), (h1Id, backendH1)], h1Id) := rfl

/-- Helper: reading back the key just stored with Go map-assignment
semantics. -/
theorem lookupBackend_insertBackend_self (m : List (String × Backend)) (k : String)
    (v : Backend) : lookupBackend (insertBackend m k v) k = some v := by
  induction m with
  | nil => simp [insertBackend, lookupBackend]
  | cons p rest ih =>
    obtain ⟨k2, v2⟩ := p
    by_cases h : k2 = k
    · simp [insertBackend, h, lookupBackend]
    · simp [insertBackend, h, lookupBackend, ih]

/-- Helper: storing under one key does not change reads of another key. -/
theorem lookupBackend_insertBackend_ne (m : List (String × Backend)) (k k2 : String)
    (v : Backend) (h : k2 ≠ k) :
    lookupBackend (insertBackend m k v) k2 = lookupBackend m k2 := by
  induction m with
  | nil => simp [insertBackend, lookupBackend, Ne.symm h]
  | cons p rest ih =>
    obtain ⟨k0, v0⟩ := p
    by_cases hk : k0 = k
    · subst hk
      simp [insertBackend, lookupBackend, Ne.symm h]
    · by_cases h02 : k0 = k2 <;> simp [insertBackend, hk, lookupBackend, h02, ih, h]

/-- Helper: a read after folding a decoded tuple list into an existing map
returns the LAST tuple with that id, or the pre-existing entry. -/
theorem lookupBackend_applyPairs (pairs backends : List (String × Backend)) (k : String) :
    lookupBackend (applyPairs backends pairs) k =
      match lastAssoc pairs k with
      | some b => some b
      | none => lookupBackend backends k := by
  induction pairs generalizing backends with
  | nil => simp [applyPairs, lastAssoc]
  | cons p ps ih =>
    obtain ⟨k0, b0⟩ := p
    have happ : applyPairs backends ((k0, b0) :: ps) =
        applyPairs (insertBackend backends k0 b0) ps := rfl
    rw [happ, ih]
    cases hl : lastAssoc ps k with
    | some r => simp [lastAssoc, hl]
    | none =>
      simp only [lastAssoc, hl]
      by_cases h0 : k0 = k
      · subst h0
        simp [lookupBackend_insertBackend_self]
      · simp [h0, lookupBackend_insertBackend_ne backends k0 k b0 (Ne.symm h0)]

/-- Claim C7 amended: a discovery call MERGES the current hosts response into
the existing `Backends` map.  When every tuple decodes, the loop finishes with
the decoded pairs folded into the map: every host id of the response maps to
the Backend built from the LAST tuple carrying that id (later tuples overwrite
earlier ones and pre-existing entries), the last tuple's id is carried
forward, and an entry whose id is absent from the response survives unchanged
from before the call — the key set is the union, not the response's ids. -/
theorem storeBackends_merges_into_existing_map (servers : List (List Jso))
    (pairs backends : List (String × Backend)) (sid0 : String)
    (h : decodeList servers = GoResult.ok pairs) :
    storeBackends servers backends sid0 =
      GoResult.ok (applyPairs backends pairs, (pairs.map Prod.fst).getLastD sid0) ∧
    (∀ k b, lastAssoc pairs k = some b →
        lookupBackend (applyPairs backends pairs) k = some b) ∧
    (∀ k, lastAssoc pairs k = none →
        lookupBackend (applyPairs backends pairs) k = lookupBackend backends k) := by
  refine ⟨?_, ?_, ?_⟩
  · induction servers generalizing pairs backends sid0 with
    | nil =>
      simp only [decodeList] at h
      injection h with h2
      subst h2
      simp [storeBackends, applyPairs]
    | cons s rest ih =>
      cases hd : decodeBackendTuple s with
      | panic m =>
        simp only [decodeList, hd] at h
        exact GoResult.noConfusion h
      | err e =>
        simp only [decodeList, hd] at h
        exact GoResult.noConfusion h
      | ok p =>
        obtain ⟨sid, b⟩ := p
        cases hrest : decodeList rest with
        | panic m =>
          simp only [decodeList, hd, hrest] at h
          exact GoResult.noConfusion h
        | err e =>
          simp only [decodeList, hd, hrest] at h
          exact GoResult.noConfusion h
        | ok ps =>
          simp only [decodeList, hd, hrest] at h
          injection h with h2
          subst h2
          have hstore : storeBackends (s :: rest) backends sid0 =
              storeBackends rest (insertBackend backends sid b) sid := by
            simp only [storeBackends, hd]
          rw [hstore, ih ps (insertBackend backends sid b) sid hrest]
          have hlast : (((sid, b) :: ps).map Prod.fst).getLastD sid0 =
              (ps.map Prod.fst).getLastD sid := by
            rw [List.map_cons, List.getLastD_cons]
          rw [hlast]
          rfl
  · intro k b hb
    rw [lookupBackend_applyPairs, hb]
  · intro k hb
    rw [lookupBackend_applyPairs, hb]

/-- Witness for the amended C7 at the specification example hosts list over a
map holding one stale entry. -/
theorem storeBackends_merges_into_existing_map_witness :
    storeBackends [hostTuple1] [(oldId, staleBackend)] emptyBody =
      GoResult.ok (applyPairs [(oldId, staleBackend)] [(h1Id, backendH1)],
        ([(h1Id, backendH1)].map Prod.fst).getLastD emptyBody) ∧
    (∀ k b, lastAssoc [(h1Id, backendH1)] k = some b →
        lookupBackend (applyPairs [(oldId, staleBackend)] [(h1Id, backendH1)]) k = some b) ∧
    (∀ k, lastAssoc [(h1Id, backendH1)] k = none →
        lookupBackend (applyPairs [(oldId, staleBackend)] [(h1Id, backendH1)]) k =
          lookupBackend [(oldId, staleBackend)] k) :=
  storeBackends_merges_into_existing_map [hostTuple1] [(h1Id, backendH1)]
    [(oldId, staleBackend)] emptyBody rfl

/-- Helper: a hosts tuple with fewer than 4 elements hits the
index-out-of-range branch of the config.go per-tuple decode. -/
theorem decodeBackendTuple_short (s : List Jso) (h : s.length < 4) :
    decodeBackendTuple s = GoResult.panic indexOutOfRange := by
  rcases s with _ | ⟨a, _ | ⟨b, _ | ⟨c, _ | ⟨d, t⟩⟩⟩⟩
  · rfl
  · rfl
  · rfl
  · rfl
  · exfalso
    simp only [List.length_cons] at h
    omega

/-- Helper: a hosts tuple with at least 4 elements decodes without panicking
in the config.go variant (its type assertions are the safe two-value form). -/
theorem decodeBackendTuple_long (s : List Jso) (h : 4 ≤ s.length) :
    ∃ p, decodeBackendTuple s = GoResult.ok p := by
  obtain ⟨a0, h0⟩ : ∃ x, s[0]? = some x := ⟨s[0], List.getElem?_eq_getElem (by omega)⟩
  obtain ⟨a1, h1⟩ : ∃ x, s[1]? = some x := ⟨s[1], List.getElem?_eq_getElem (by omega)⟩
  obtain ⟨a2, h2⟩ : ∃ x, s[2]? = some x := ⟨s[2], List.getElem?_eq_getElem (by omega)⟩
  obtain ⟨a3, h3⟩ : ∃ x, s[3]? = some x := ⟨s[3], List.getElem?_eq_getElem (by omega)⟩
  unfold decodeBackendTuple
  rw [h0, h1, h2, h3]
  exact ⟨_, rfl⟩

/-- Helper: a short tuple in the deluge.go variant panics as well, through the
out-of-range read or an unchecked type assertion. -/
theorem decodeBackendTupleD_short (s : List Jso) (h : s.length < 4) :
    ∃ msg, decodeBackendTupleD s = GoResult.panic msg := by
  rcases s with _ | ⟨a, _ | ⟨b, _ | ⟨c, _ | ⟨d, t⟩⟩⟩⟩
  · exact ⟨indexOutOfRange, rfl⟩
  · exact ⟨indexOutOfRange, rfl⟩
  · cases b with
    | null => exact ⟨interfaceConversion, rfl⟩
    | bool b2 => exact ⟨interfaceConversion, rfl⟩
    | str s1 => exact ⟨indexOutOfRange, rfl⟩
    | num n => exact ⟨interfaceConversion, rfl⟩
    | arr xs => exact ⟨interfaceConversion, rfl⟩
  · cases b with
    | str s1 =>
      cases c with
      | null => exact ⟨interfaceConversion, rfl⟩
      | bool b2 => exact ⟨interfaceConversion, rfl⟩
      | str s2 => exact ⟨interfaceConversion, rfl⟩
      | num n => exact ⟨indexOutOfRange, rfl⟩
      | arr xs => exact ⟨interfaceConversion, rfl⟩
    | null => exact ⟨interfaceConversion, rfl⟩
    | bool b2 => exact ⟨interfaceConversion, rfl⟩
    | num n => exact ⟨interfaceConversion, rfl⟩
    | arr xs => exact ⟨interfaceConversion, rfl⟩
  · exfalso
    simp only [List.length_cons] at h
    omega

/-- Helper: the whole hosts loop panics with index out of range when any tuple
of the response is shorter than 4 elements. -/
theorem storeBackends_panics (servers : List (List Jso))
    (backends : List (String × Backend)) (sid0 : String)
    (h : ∃ s ∈ servers, s.length < 4) :
    storeBackends servers backends sid0 = GoResult.panic indexOutOfRange := by
  induction servers generalizing backends sid0 with
  | nil =>
    obtain ⟨s, hs, _⟩ := h
    simp at hs
  | cons s0 rest ih =>
    obtain ⟨s, hs, hlen⟩ := h
    rcases List.mem_cons.mp hs with rfl | hmem
    · simp only [storeBackends, decodeBackendTuple_short s hlen]
    · by_cases h4 : s0.length < 4
      · simp only [storeBackends, decodeBackendTuple_short s0 h4]
      · obtain ⟨p, hp⟩ := decodeBackendTuple_long s0 (Nat.not_lt.mp h4)
        obtain ⟨sid, b⟩ := p
        simp only [storeBackends, hp]
        exact ih (insertBackend backends sid b) sid ⟨s, hmem, hlen⟩

/-- Claim C10: the per-tuple decode of the hosts response is not total.  Every
tuple is read positionally at indices 0 through 3 with no length guard, so any
tuple with fewer than 4 elements reaches the out-of-range branch — in the
deluge.go variant also the failed-assertion branch — and the whole call panics
rather than failing with `ErrInvalidVersion`. -/
theorem hostTuple_decode_not_total (servers : List (List Jso)) (s : List Jso)
    (backends : List (String × Backend)) (sid0 : String)
    (hmem : s ∈ servers) (hlen : s.length < 4) :
    decodeBackendTuple s = GoResult.panic indexOutOfRange ∧
    (∃ msg, decodeBackendTupleD s = GoResult.panic msg) ∧
    storeBackends servers backends sid0 = GoResult.panic indexOutOfRange ∧
    ∀ e, storeBackends servers backends sid0 ≠ GoResult.err e := by
  refine ⟨decodeBackendTuple_short s hlen, decodeBackendTupleD_short s hlen,
    storeBackends_panics servers backends sid0 ⟨s, hmem, hlen⟩, ?_⟩
  intro e he
  rw [storeBackends_panics servers backends sid0 ⟨s, hmem, hlen⟩] at he
  exact GoResult.noConfusion he

/-- Witness for C10 at a concrete input: a hosts response holding one
1-element tuple. -/
theorem hostTuple_decode_not_total_witness :
    decodeBackendTuple shortTuple = GoResult.panic indexOutOfRange ∧
    (∃ msg, decodeBackendTupleD shortTuple = GoResult.panic msg) ∧
    storeBackends [shortTuple] [] emptyBody = GoResult.panic indexOutOfRange ∧
    ∀ e, storeBackends [shortTuple] [] emptyBody ≠ GoResult.err e :=
  hostTuple_decode_not_total [shortTuple] shortTuple [] emptyBody
    (List.mem_cons_self shortTuple []) (by decide)

/-- Claim C8 (refuted): the normalisation does not leave every URL already
ending in "/json" unchanged (and is not idempotent): on a URL ending in
"//json" the inner TrimSuffix removes "/json" and the outer TrimSuffix then
removes the slash that preceded it, so one slash is lost. -/
theorem normalizeURL_changes_url_ending_in_json :
    normalizeURL doubleSlashURL = singleSlashURL ∧ doubleSlashURL ≠ singleSlashURL := by
  constructor
  · decide
  · decide

/-- Helper: `strings.TrimSuffix` removes a present suffix. -/
theorem trimSuffixL_append (t sfx : List Char) : trimSuffixL (t ++ sfx) sfx = t := by
  unfold trimSuffixL
  rw [if_pos ⟨t, rfl⟩, List.length_append, Nat.add_sub_cancel, List.take_left]

/-- Helper: `strings.TrimSuffix` leaves a string without the suffix
unchanged. -/
theorem trimSuffixL_of_not_suffix (s sfx : List Char) (h : ¬ sfx <:+ s) :
    trimSuffixL s sfx = s := by
  unfold trimSuffixL
  rw [if_neg h]

/-- Claim C8 amended: every POST URL produced by the normalisation ends in
"/json"; a configured URL that ends in "/json" but NOT in "//json" is left
unchanged; and a URL not ending in "/json" has one trailing "/" (when present)
trimmed and a single "/json" appended.  (URLs ending in "//json" are the
exception the counterexample exhibits: one slash is dropped.) -/
theorem normalizeURL_characterisation (s : String) :
    slashJson.data <:+ (normalizeURL s).data ∧
    (slashJson.data <:+ s.data → ¬ slashSlashJson.data <:+ s.data → normalizeURL s = s) ∧
    (¬ slashJson.data <:+ s.data →
        (normalizeURL s).data = trimSuffixL s.data slashStr.data ++ slashJson.data) := by
  refine ⟨⟨_, rfl⟩, ?_, ?_⟩
  · intro h hns
    obtain ⟨t, ht⟩ := h
    have h1 : trimSuffixL s.data slashJson.data = t := by
      rw [← ht, trimSuffixL_append]
    have h2 : ¬ slashStr.data <:+ t := by
      intro hsl
      obtain ⟨u, hu⟩ := hsl
      apply hns
      refine ⟨u, ?_⟩
      rw [← ht, ← hu, List.append_assoc]
      rfl
    have h3 : trimSuffixL t slashStr.data = t := trimSuffixL_of_not_suffix t _ h2
    have hd : (normalizeURL s).data = s.data := by
      show normalizeURLChars s.data = s.data
      unfold normalizeURLChars
      rw [h1, h3, ht]
    cases s with
    | mk data => exact congrArg String.mk hd
  · intro h
    show normalizeURLChars s.data = _
    unfold normalizeURLChars
    rw [trimSuffixL_of_not_suffix _ _ h]

/-- Witness for the amended C8: a well-formed URL already carrying the
"/json" suffix is left unchanged. -/
theorem normalizeURL_characterisation_witness :
    normalizeURL singleSlashURL = singleSlashURL :=
  (normalizeURL_characterisation singleSlashURL).2.1 (by decide) (by decide)

end Deluge
